import Mathlib

/-!
Shallow embedding of the TMD (tuned mass damper) optimizer core
(`src/services/tmdMath.ts`) over the real numbers, together with proofs of
the specified properties.  JavaScript `number` arithmetic is modelled by
exact real arithmetic (`ℝ`, `Real.sqrt`); loops are modelled by structural
recursion with exactly the iteration bounds of the source.
-/

namespace TmdOptimizer

/-! ### Amplitude model (`getAmplitude`, `getOriginalAmplitude`) -/

/-- Numerator magnitude of the with-absorber transfer function:
`Math.sqrt(term1 * term1 + term2 * term2)` with `term1 = f2 - g2`,
`term2 = 2 * zeta2 * f * g`. -/
noncomputable def getAmplitudeNum (g f zeta2 : ℝ) : ℝ :=
  let g2 := g * g
  let f2 := f * f
  let term1 := f2 - g2
  let term2 := 2 * zeta2 * f * g
  Real.sqrt (term1 * term1 + term2 * term2)

/-- Denominator magnitude of the with-absorber transfer function:
`Math.sqrt(denPart1 * denPart1 + denPart2 * denPart2)`. -/
noncomputable def getAmplitudeDen (g f zeta2 mu zeta1 : ℝ) : ℝ :=
  let g2 := g * g
  let f2 := f * f
  let term1 := f2 - g2
  let denPart1 := (1 - g2) * term1 - mu * f2 * g2 - 4 * zeta1 * zeta2 * f * g2
  let denPart2 := 2 * zeta2 * f * g * (1 - g2 - mu * g2) + 2 * zeta1 * g * term1
  Real.sqrt (denPart1 * denPart1 + denPart2 * denPart2)

/-- `getAmplitude(g, f, zeta2, mu, zeta1)`: dimensionless amplitude of the
primary system with a TMD; returns the sentinel `100` on an exactly-zero
denominator (`den === 0 ? 100 : num / den`). -/
noncomputable def getAmplitude (g f zeta2 mu zeta1 : ℝ) : ℝ :=
  if getAmplitudeDen g f zeta2 mu zeta1 = 0 then 100
  else getAmplitudeNum g f zeta2 / getAmplitudeDen g f zeta2 mu zeta1

/-- Denominator of the bare-primary (no absorber) amplitude:
`Math.sqrt(Math.pow(1 - g2, 2) + Math.pow(2 * zeta1 * g, 2))`. -/
noncomputable def getOriginalAmplitudeDen (g zeta1 : ℝ) : ℝ :=
  let g2 := g * g
  Real.sqrt ((1 - g2) ^ 2 + (2 * zeta1 * g) ^ 2)

/-- `getOriginalAmplitude(g, zeta1)`: amplitude of the bare single
degree-of-freedom primary system (`den === 0 ? 100 : 1 / den`). -/
noncomputable def getOriginalAmplitude (g zeta1 : ℝ) : ℝ :=
  if getOriginalAmplitudeDen g zeta1 = 0 then 100
  else 1 / getOriginalAmplitudeDen g zeta1

/-! ### Peak finder (`findPeakAmplitude`) -/

/-- The running maximum of the scan loop
`for (let g = 0.5; g <= 2.0; g += 0.005)` after the first `n` samples:
`maxAmp` starts at `0` and is replaced whenever `amp > maxAmp`.  Sample `k`
is taken at `g = 0.5 + 0.005 * k`. -/
noncomputable def peakScan (f zeta2 mu zeta1 : ℝ) : ℕ → ℝ
  | 0 => 0
  | n + 1 =>
      let maxAmp := peakScan f zeta2 mu zeta1 n
      let amp := getAmplitude (0.5 + 0.005 * n) f zeta2 mu zeta1
      if amp > maxAmp then amp else maxAmp

/-- `findPeakAmplitude(f, zeta2, mu, zeta1)`: maximum amplitude over the
scan grid `g = 0.5, 0.505, …, 2.0` (301 samples: `0.5 + 0.005 * 300 = 2.0`
is the last value satisfying `g <= 2.0`). -/
noncomputable def findPeakAmplitude (f zeta2 mu zeta1 : ℝ) : ℝ :=
  peakScan f zeta2 mu zeta1 301

/-! ### Basic amplitude lemmas -/

lemma getAmplitudeNum_nonneg (g f zeta2 : ℝ) : 0 ≤ getAmplitudeNum g f zeta2 :=
  Real.sqrt_nonneg _

lemma getAmplitudeDen_nonneg (g f zeta2 mu zeta1 : ℝ) :
    0 ≤ getAmplitudeDen g f zeta2 mu zeta1 :=
  Real.sqrt_nonneg _

lemma getOriginalAmplitudeDen_nonneg (g zeta1 : ℝ) :
    0 ≤ getOriginalAmplitudeDen g zeta1 :=
  Real.sqrt_nonneg _

lemma getAmplitude_nonneg (g f zeta2 mu zeta1 : ℝ) :
    0 ≤ getAmplitude g f zeta2 mu zeta1 := by
  unfold getAmplitude
  split
  · norm_num
  · exact div_nonneg (getAmplitudeNum_nonneg g f zeta2)
      (getAmplitudeDen_nonneg g f zeta2 mu zeta1)

lemma getOriginalAmplitude_nonneg (g zeta1 : ℝ) :
    0 ≤ getOriginalAmplitude g zeta1 := by
  unfold getOriginalAmplitude
  split
  · norm_num
  · exact div_nonneg zero_le_one (getOriginalAmplitudeDen_nonneg g zeta1)

lemma peakScan_nonneg (f zeta2 mu zeta1 : ℝ) (n : ℕ) :
    0 ≤ peakScan f zeta2 mu zeta1 n := by
  induction n with
  | zero => simp [peakScan]
  | succ n ih =>
      simp only [peakScan]
      split
      · exact getAmplitude_nonneg _ _ _ _ _
      · exact ih

lemma findPeakAmplitude_nonneg (f zeta2 mu zeta1 : ℝ) :
    0 ≤ findPeakAmplitude f zeta2 mu zeta1 :=
  peakScan_nonneg f zeta2 mu zeta1 301

/-! ### Golden-section search (`goldenSectionSearch`) -/

/-- The golden ratio constant of the search: `(Math.sqrt(5) - 1) / 2`. -/
noncomputable def phi : ℝ := (Real.sqrt 5 - 1) / 2

/-- The loop state of `goldenSectionSearch`: bracket `[a, b]`, the two
interior probes `x1 ≤ x2`, and the cached objective values `f1 = f(x1)`,
`f2 = f(x2)`. -/
structure GssState where
  a : ℝ
  b : ℝ
  x1 : ℝ
  x2 : ℝ
  f1 : ℝ
  f2 : ℝ

/-- State before the first loop test: `a = lower`, `b = upper`,
`x1 = b - phi*(b-a)`, `x2 = a + phi*(b-a)`, `f1 = f(x1)`, `f2 = f(x2)`. -/
noncomputable def gssInit (f : ℝ → ℝ) (lower upper : ℝ) : GssState :=
  ⟨lower, upper,
   upper - phi * (upper - lower), lower + phi * (upper - lower),
   f (upper - phi * (upper - lower)), f (lower + phi * (upper - lower))⟩

/-- One iteration of the `while (Math.abs(b - a) > tol)` body: if
`f1 < f2` shrink the bracket to `[a, x2]` reusing probe `x1`, otherwise
shrink to `[x1, b]` reusing probe `x2`; exactly one new objective
evaluation either way. -/
noncomputable def gssStep (f : ℝ → ℝ) (s : GssState) : GssState :=
  if s.f1 < s.f2 then
    ⟨s.a, s.x2, s.x2 - phi * (s.x2 - s.a), s.x1,
     f (s.x2 - phi * (s.x2 - s.a)), s.f1⟩
  else
    ⟨s.x1, s.b, s.x2, s.x1 + phi * (s.b - s.x1),
     s.f2, f (s.x1 + phi * (s.b - s.x1))⟩

/-- The `while` loop with explicit fuel: iterate `gssStep` while
`|b - a| > tol`; the state is returned unchanged once the guard fails, so
any fuel at least the number of loop iterations yields the loop's exit
state. -/
noncomputable def gssLoop (f : ℝ → ℝ) (tol : ℝ) : ℕ → GssState → GssState
  | 0, s => s
  | n + 1, s => if |s.b - s.a| > tol then gssLoop f tol n (gssStep f s) else s

/-- Fuel sufficient for the loop to reach its exit condition: the least `n`
with `phi ^ n * |upper - lower| ≤ tol` (each iteration scales the bracket
width by `phi`), or `0` if no such `n` exists (possible only for
`tol ≤ 0`, outside the search's contract). -/
noncomputable def gssFuel (lower upper tol : ℝ) : ℕ :=
  letI := Classical.dec (∃ n : ℕ, phi ^ n * |upper - lower| ≤ tol)
  if h : ∃ n : ℕ, phi ^ n * |upper - lower| ≤ tol then Nat.find h else 0

/-- The state at which `goldenSectionSearch`'s loop exits. -/
noncomputable def gssFinal (f : ℝ → ℝ) (lower upper tol : ℝ) : GssState :=
  gssLoop f tol (gssFuel lower upper tol) (gssInit f lower upper)

/-- `goldenSectionSearch(f, lower, upper, tol)`: returns the midpoint
`(a + b) / 2` of the bracket at loop exit. -/
noncomputable def goldenSectionSearch (f : ℝ → ℝ) (lower upper tol : ℝ) : ℝ :=
  ((gssFinal f lower upper tol).a + (gssFinal f lower upper tol).b) / 2

/-! ### Golden-ratio facts -/

lemma phi_pos : 0 < phi := by
  have h : (2:ℝ) < Real.sqrt 5 := by
    have := Real.lt_sqrt (x := 2) (y := 5) (by norm_num)
    rw [this]; norm_num
  unfold phi; linarith

lemma phi_lt_one : phi < 1 := by
  have h : Real.sqrt 5 < 3 := by
    have := Real.sqrt_lt' (x := 5) (y := 3) (by norm_num)
    rw [this]; norm_num
  unfold phi; linarith

lemma half_lt_phi : 1 / 2 < phi := by
  have h : (2:ℝ) < Real.sqrt 5 := by
    have := Real.lt_sqrt (x := 2) (y := 5) (by norm_num)
    rw [this]; norm_num
  unfold phi; linarith

lemma phi_sq : phi ^ 2 = 1 - phi := by
  have h5 : Real.sqrt 5 ^ 2 = 5 := Real.sq_sqrt (by norm_num)
  unfold phi; ring_nf; nlinarith [h5]

/-! ### Golden-section invariants -/

/-- Well-formedness of a search state: both probes sit at the golden-ratio
positions of the current bracket and the cached values match the
objective.  `gssInit` establishes it and `gssStep` preserves it (this is
what makes reusing one probe per iteration sound). -/
def GssState.Wf (f : ℝ → ℝ) (s : GssState) : Prop :=
  s.x1 = s.b - phi * (s.b - s.a) ∧ s.x2 = s.a + phi * (s.b - s.a) ∧
  s.f1 = f s.x1 ∧ s.f2 = f s.x2

lemma gssInit_wf (f : ℝ → ℝ) (lower upper : ℝ) :
    (gssInit f lower upper).Wf f :=
  ⟨rfl, rfl, rfl, rfl⟩

lemma gssStep_wf {f : ℝ → ℝ} {s : GssState} (hs : s.Wf f) :
    (gssStep f s).Wf f := by
  obtain ⟨h1, h2, hf1, hf2⟩ := hs
  unfold gssStep
  split
  · refine ⟨rfl, ?_, rfl, ?_⟩
    · simp only
      rw [h1, h2]
      linear_combination (s.a - s.b) * phi_sq
    · simpa using hf1
  · refine ⟨?_, rfl, ?_, rfl⟩
    · simp only
      rw [h1, h2]
      linear_combination (s.b - s.a) * phi_sq
    · simpa using hf2

lemma gssStep_width {f : ℝ → ℝ} {s : GssState} (hs : s.Wf f) :
    (gssStep f s).b - (gssStep f s).a = phi * (s.b - s.a) := by
  obtain ⟨h1, h2, _, _⟩ := hs
  unfold gssStep
  split <;> simp only <;> linarith [h1, h2]

lemma gssStep_bracket {f : ℝ → ℝ} {s : GssState} (hs : s.Wf f)
    (hab : s.a ≤ s.b) :
    s.a ≤ (gssStep f s).a ∧ (gssStep f s).a ≤ (gssStep f s).b ∧
      (gssStep f s).b ≤ s.b := by
  obtain ⟨h1, h2, _, _⟩ := hs
  have h0 := phi_pos
  have hlt := phi_lt_one
  have hw : 0 ≤ s.b - s.a := by linarith
  unfold gssStep
  split <;> simp only <;>
    refine ⟨?_, ?_, ?_⟩ <;> nlinarith [h1, h2]

lemma gssLoop_wf {f : ℝ → ℝ} {tol : ℝ} (n : ℕ) {s : GssState}
    (hs : s.Wf f) : (gssLoop f tol n s).Wf f := by
  induction n generalizing s with
  | zero => exact hs
  | succ n ih =>
      simp only [gssLoop]
      split
      · exact ih (gssStep_wf hs)
      · exact hs

lemma gssLoop_bracket {f : ℝ → ℝ} {tol : ℝ} (n : ℕ) {s : GssState}
    (hs : s.Wf f) (hab : s.a ≤ s.b) :
    s.a ≤ (gssLoop f tol n s).a ∧
      (gssLoop f tol n s).a ≤ (gssLoop f tol n s).b ∧
      (gssLoop f tol n s).b ≤ s.b := by
  induction n generalizing s with
  | zero => exact ⟨le_refl _, hab, le_refl _⟩
  | succ n ih =>
      simp only [gssLoop]
      split
      · obtain ⟨ha, hmid, hb⟩ := gssStep_bracket hs hab
        obtain ⟨ha', hmid', hb'⟩ := ih (gssStep_wf hs) hmid
        exact ⟨le_trans ha ha', hmid', le_trans hb' hb⟩
      · exact ⟨le_refl _, hab, le_refl _⟩

lemma gssLoop_width {f : ℝ → ℝ} {tol : ℝ} (n : ℕ) {s : GssState}
    (hs : s.Wf f) :
    |(gssLoop f tol n s).b - (gssLoop f tol n s).a| ≤
      max tol (phi ^ n * |s.b - s.a|) := by
  induction n generalizing s with
  | zero =>
      simp only [gssLoop, pow_zero, one_mul]
      exact le_max_right _ _
  | succ n ih =>
      simp only [gssLoop]
      split
      · have hstep : |(gssStep f s).b - (gssStep f s).a| =
            phi * |s.b - s.a| := by
          rw [gssStep_width hs, abs_mul, abs_of_pos phi_pos]
        have := ih (gssStep_wf hs)
        rw [hstep] at this
        calc |(gssLoop f tol n (gssStep f s)).b -
                (gssLoop f tol n (gssStep f s)).a| ≤
            max tol (phi ^ n * (phi * |s.b - s.a|)) := this
          _ = max tol (phi ^ (n + 1) * |s.b - s.a|) := by ring_nf
      · rename_i h
        push_neg at h
        exact le_trans h (le_max_left _ _)

lemma gss_fuel_exists {w tol : ℝ} (htol : 0 < tol) :
    ∃ n : ℕ, phi ^ n * |w| ≤ tol := by
  obtain ⟨n, hn⟩ := exists_pow_lt_of_lt_one
    (div_pos htol (by positivity : (0:ℝ) < |w| + 1)) phi_lt_one
  refine ⟨n, ?_⟩
  have h1 : phi ^ n * |w| ≤ phi ^ n * (|w| + 1) := by
    have : (0:ℝ) ≤ phi ^ n := le_of_lt (pow_pos phi_pos n)
    nlinarith
  have h2 : phi ^ n * (|w| + 1) < (tol / (|w| + 1)) * (|w| + 1) := by
    have : (0:ℝ) < |w| + 1 := by positivity
    exact mul_lt_mul_of_pos_right hn this
  have h3 : (tol / (|w| + 1)) * (|w| + 1) = tol := by
    field_simp
  linarith

lemma gssFinal_width (f : ℝ → ℝ) (lower upper : ℝ) {tol : ℝ}
    (htol : 0 < tol) :
    |(gssFinal f lower upper tol).b - (gssFinal f lower upper tol).a| ≤
      tol := by
  have hex : ∃ n : ℕ, phi ^ n * |upper - lower| ≤ tol :=
    gss_fuel_exists htol
  have hfuel : phi ^ gssFuel lower upper tol * |upper - lower| ≤ tol := by
    unfold gssFuel
    rw [dif_pos hex]
    exact Nat.find_spec hex
  have hw := @gssLoop_width f tol (gssFuel lower upper tol)
    (gssInit f lower upper) (gssInit_wf f lower upper)
  have hinit : (gssInit f lower upper).b - (gssInit f lower upper).a =
      upper - lower := rfl
  rw [hinit] at hw
  exact le_trans hw (max_le (le_refl _) hfuel)

lemma gssFinal_bracket (f : ℝ → ℝ) {lower upper : ℝ} (tol : ℝ)
    (hlu : lower ≤ upper) :
    lower ≤ (gssFinal f lower upper tol).a ∧
      (gssFinal f lower upper tol).a ≤ (gssFinal f lower upper tol).b ∧
      (gssFinal f lower upper tol).b ≤ upper :=
  gssLoop_bracket _ (gssInit_wf f lower upper) hlu

lemma goldenSectionSearch_mem (f : ℝ → ℝ) {lower upper : ℝ} (tol : ℝ)
    (hlu : lower ≤ upper) :
    lower ≤ goldenSectionSearch f lower upper tol ∧
      goldenSectionSearch f lower upper tol ≤ upper := by
  obtain ⟨ha, hab, hb⟩ := gssFinal_bracket f tol hlu
  unfold goldenSectionSearch
  constructor <;> [linarith; linarith]

lemma gss_x1_lt_x2 {f : ℝ → ℝ} {s : GssState} (hs : s.Wf f)
    (hab : s.a < s.b) : s.x1 < s.x2 := by
  obtain ⟨h1, h2, _, _⟩ := hs
  have := half_lt_phi
  nlinarith [h1, h2]

lemma gssStep_parabola {c d x0 : ℝ} (hc : 0 < c) {s : GssState}
    (hs : s.Wf (fun x => c * (x - x0) ^ 2 + d)) (hab : s.a < s.b)
    (ha : s.a ≤ x0) (hb : x0 ≤ s.b) :
    (gssStep (fun x => c * (x - x0) ^ 2 + d) s).a ≤ x0 ∧
      x0 ≤ (gssStep (fun x => c * (x - x0) ^ 2 + d) s).b := by
  have hx12 : s.x1 < s.x2 := gss_x1_lt_x2 hs hab
  obtain ⟨h1, h2, hf1, hf2⟩ := hs
  simp only at hf1 hf2
  unfold gssStep
  split
  · rename_i hlt
    rw [hf1, hf2] at hlt
    simp only
    refine ⟨ha, ?_⟩
    by_contra hco
    push_neg at hco
    nlinarith [mul_pos (sub_pos.mpr hx12) (sub_pos.mpr hco),
      mul_pos hc (mul_pos (sub_pos.mpr hx12) (sub_pos.mpr hco))]
  · rename_i hge
    push_neg at hge
    rw [hf1, hf2] at hge
    simp only
    refine ⟨?_, hb⟩
    by_contra hco
    push_neg at hco
    nlinarith [mul_pos (sub_pos.mpr hx12) (sub_pos.mpr hco),
      mul_pos hc (mul_pos (sub_pos.mpr hx12) (sub_pos.mpr hco))]

lemma gssLoop_parabola {c d x0 tol : ℝ} (hc : 0 < c) (htol : 0 < tol)
    (n : ℕ) {s : GssState}
    (hs : s.Wf (fun x => c * (x - x0) ^ 2 + d)) (hab : s.a ≤ s.b)
    (ha : s.a ≤ x0) (hb : x0 ≤ s.b) :
    (gssLoop (fun x => c * (x - x0) ^ 2 + d) tol n s).a ≤ x0 ∧
      x0 ≤ (gssLoop (fun x => c * (x - x0) ^ 2 + d) tol n s).b := by
  induction n generalizing s with
  | zero => exact ⟨ha, hb⟩
  | succ n ih =>
      simp only [gssLoop]
      split
      · rename_i hguard
        have hab' : s.a < s.b := by
          rcases lt_or_eq_of_le hab with h | h
          · exact h
          · rw [h] at hguard
            simp at hguard
            linarith
        obtain ⟨ha', hb'⟩ := gssStep_parabola hc hs hab' ha hb
        obtain ⟨_, hmid, _⟩ := gssStep_bracket hs hab
        exact ih (gssStep_wf hs) hmid ha' hb'
      · exact ⟨ha, hb⟩

lemma goldenSectionSearch_parabola {c d x0 lower upper tol : ℝ}
    (hc : 0 < c) (htol : 0 < tol) (hlo : lower ≤ x0) (hhi : x0 ≤ upper) :
    |goldenSectionSearch (fun x => c * (x - x0) ^ 2 + d) lower upper tol -
      x0| ≤ tol := by
  set q : ℝ → ℝ := fun x => c * (x - x0) ^ 2 + d with hq
  have hlu : lower ≤ upper := le_trans hlo hhi
  obtain ⟨hax, hxb⟩ := gssLoop_parabola hc htol
    (gssFuel lower upper tol) (gssInit_wf q lower upper) hlu hlo hhi
  obtain ⟨_, hab, _⟩ := gssFinal_bracket q tol hlu
  have hwidth := gssFinal_width q lower upper htol
  have hba : (gssFinal q lower upper tol).b -
      (gssFinal q lower upper tol).a ≤ tol := by
    rw [abs_of_nonneg (by linarith)] at hwidth
    exact hwidth
  have hax' : (gssFinal q lower upper tol).a ≤ x0 := hax
  have hxb' : x0 ≤ (gssFinal q lower upper tol).b := hxb
  unfold goldenSectionSearch
  rw [abs_le]
  constructor <;> [linarith; linarith]

/-! ### Optimizer (`optimizeTMD`) -/

/-- The mutable state of the coordinate-descent loop.  `prevVal` is
`none` for the JavaScript initial value `Infinity` (for which the break
test `Math.abs(prevVal - currentVal) < tolerance` is false against any
finite `currentVal`), and `some p` once a finite value has been stored. -/
structure OptState where
  f : ℝ
  zeta2 : ℝ
  prevVal : Option ℝ
  currentVal : ℝ

/-- The record `{ f_opt, zeta2_opt, minPeakAmp }` returned by
`optimizeTMD`. -/
structure OptResult where
  f_opt : ℝ
  zeta2_opt : ℝ
  minPeakAmp : ℝ

/-- State before the first iteration: Den Hartog warm start
`f = 1/(1+mu)`, `zeta2 = sqrt(3*mu/(8*(1+mu)))`, `prevVal = Infinity`,
`currentVal = findPeakAmplitude(f, zeta2, mu, zeta1)`. -/
noncomputable def optInit (mu zeta1 : ℝ) : OptState :=
  let f := 1 / (1 + mu)
  let zeta2 := Real.sqrt ((3 * mu) / (8 * (1 + mu)))
  ⟨f, zeta2, none, findPeakAmplitude f zeta2 mu zeta1⟩

/-- The first line of the loop body: golden-section search over the
tuning ratio, `f = goldenSectionSearch(testF =>
findPeakAmplitude(testF, zeta2, mu, zeta1), 0.5, 1.5, tolerance)`. -/
noncomputable def optSearchF (mu zeta1 tol zeta2 : ℝ) : ℝ :=
  goldenSectionSearch
    (fun testF => findPeakAmplitude testF zeta2 mu zeta1) 0.5 1.5 tol

/-- The second line of the loop body: golden-section search over the
absorber damping, `zeta2 = goldenSectionSearch(testZ2 =>
findPeakAmplitude(f, testZ2, mu, zeta1), 0.01, 0.5, tolerance)`. -/
noncomputable def optSearchZ (mu zeta1 tol f' : ℝ) : ℝ :=
  goldenSectionSearch
    (fun testZ2 => findPeakAmplitude f' testZ2 mu zeta1) 0.01 0.5 tol

/-- The `for (let iteration = 0; iteration < 20; iteration++)` body:
golden-section search over `f ∈ [0.5, 1.5]`, then over
`zeta2 ∈ [0.01, 0.5]`, recompute the peak, and break when the
improvement `|prevVal - currentVal|` drops below the tolerance. -/
noncomputable def optLoop (mu zeta1 tol : ℝ) : ℕ → OptState → OptState
  | 0, s => s
  | n + 1, s =>
      let f' := optSearchF mu zeta1 tol s.zeta2
      let z' := optSearchZ mu zeta1 tol f'
      let cur := findPeakAmplitude f' z' mu zeta1
      match s.prevVal with
      | none => optLoop mu zeta1 tol n ⟨f', z', some cur, cur⟩
      | some p =>
          if |p - cur| < tol then ⟨f', z', some p, cur⟩
          else optLoop mu zeta1 tol n ⟨f', z', some cur, cur⟩

/-- `optimizeTMD(mu, zeta1)`: run the coordinate-descent loop (at most 20
iterations, tolerance `1e-4`) from the warm start and return
`{ f_opt: f, zeta2_opt: zeta2, minPeakAmp: currentVal }`. -/
noncomputable def optimizeTMD (mu zeta1 : ℝ) : OptResult :=
  let s := optLoop mu zeta1 (1 / 10000) 20 (optInit mu zeta1)
  ⟨s.f, s.zeta2, s.currentVal⟩

/-! ### Optimizer invariants -/

lemma optSearchF_mem (mu zeta1 tol zeta2 : ℝ) :
    (0.5 : ℝ) ≤ optSearchF mu zeta1 tol zeta2 ∧
      optSearchF mu zeta1 tol zeta2 ≤ (1.5 : ℝ) :=
  goldenSectionSearch_mem _ tol (by norm_num)

lemma optSearchZ_mem (mu zeta1 tol f' : ℝ) :
    (0.01 : ℝ) ≤ optSearchZ mu zeta1 tol f' ∧
      optSearchZ mu zeta1 tol f' ≤ (0.5 : ℝ) :=
  goldenSectionSearch_mem _ tol (by norm_num)

/-- The kind of state produced by one loop-body execution: `f` and
`zeta2` are outputs of the two golden-section searches (hence lie in the
fixed search boxes) and `currentVal` is the peak amplitude at them. -/
def OptState.FromBody (mu zeta1 : ℝ) (s : OptState) : Prop :=
  (0.5 : ℝ) ≤ s.f ∧ s.f ≤ (1.5 : ℝ) ∧
    (0.01 : ℝ) ≤ s.zeta2 ∧ s.zeta2 ≤ (0.5 : ℝ) ∧
    s.currentVal = findPeakAmplitude s.f s.zeta2 mu zeta1

lemma optBody_fromBody (mu zeta1 tol : ℝ) (s : OptState) (p : Option ℝ) :
    OptState.FromBody mu zeta1
      ⟨optSearchF mu zeta1 tol s.zeta2,
       optSearchZ mu zeta1 tol (optSearchF mu zeta1 tol s.zeta2), p,
       findPeakAmplitude (optSearchF mu zeta1 tol s.zeta2)
         (optSearchZ mu zeta1 tol (optSearchF mu zeta1 tol s.zeta2))
         mu zeta1⟩ :=
  ⟨(optSearchF_mem mu zeta1 tol s.zeta2).1,
   (optSearchF_mem mu zeta1 tol s.zeta2).2,
   (optSearchZ_mem mu zeta1 tol _).1,
   (optSearchZ_mem mu zeta1 tol _).2, rfl⟩

/-- After at least one unit of fuel, the loop's result is always a
body-produced state. -/
lemma optLoop_fromBody (mu zeta1 tol : ℝ) (n : ℕ) (s : OptState) :
    OptState.FromBody mu zeta1 (optLoop mu zeta1 tol (n + 1) s) := by
  induction n generalizing s with
  | zero =>
      show OptState.FromBody mu zeta1 (optLoop mu zeta1 tol 1 s)
      rw [optLoop]
      rcases hp : s.prevVal with _ | p
      · exact optBody_fromBody mu zeta1 tol s _
      · simp only
        split
        · exact optBody_fromBody mu zeta1 tol s _
        · exact optBody_fromBody mu zeta1 tol s _
  | succ n ih =>
      rw [optLoop]
      rcases hp : s.prevVal with _ | p
      · exact ih _
      · simp only
        split
        · exact optBody_fromBody mu zeta1 tol s _
        · exact ih _

/-- The loop preserves `currentVal = findPeakAmplitude f zeta2 mu zeta1`. -/
lemma optLoop_currentVal (mu zeta1 tol : ℝ) (n : ℕ) (s : OptState)
    (hs : s.currentVal = findPeakAmplitude s.f s.zeta2 mu zeta1) :
    (optLoop mu zeta1 tol n s).currentVal =
      findPeakAmplitude (optLoop mu zeta1 tol n s).f
        (optLoop mu zeta1 tol n s).zeta2 mu zeta1 := by
  induction n generalizing s with
  | zero => exact hs
  | succ n ih =>
      rw [optLoop]
      rcases s.prevVal with _ | p
      · exact ih _ rfl
      · simp only
        split
        · rfl
        · exact ih _ rfl

/-! ### The scan is a grid maximum -/

lemma ite_gt_eq_max (x y : ℝ) : (if y > x then y else x) = max x y := by
  split
  · rename_i h
    exact (max_eq_right (le_of_lt h)).symm
  · rename_i h
    exact (max_eq_left (le_of_not_lt h)).symm

lemma peakScan_succ (f zeta2 mu zeta1 : ℝ) (n : ℕ) :
    peakScan f zeta2 mu zeta1 (n + 1) =
      max (peakScan f zeta2 mu zeta1 n)
        (getAmplitude (0.5 + 0.005 * n) f zeta2 mu zeta1) := by
  rw [peakScan, ite_gt_eq_max]

lemma peakScan_eq_sup (f zeta2 mu zeta1 : ℝ) (n : ℕ) (hn : (Finset.range (n + 1)).Nonempty) :
    peakScan f zeta2 mu zeta1 (n + 1) =
      (Finset.range (n + 1)).sup' hn
        (fun k => getAmplitude (0.5 + 0.005 * k) f zeta2 mu zeta1) := by
  induction n with
  | zero =>
      rw [peakScan_succ]
      have h0 : peakScan f zeta2 mu zeta1 0 = 0 := rfl
      rw [h0, max_eq_right (getAmplitude_nonneg _ _ _ _ _)]
      simp [Finset.sup'_singleton]
  | succ n ih =>
      rw [peakScan_succ, ih (Finset.nonempty_range_iff.mpr n.succ_ne_zero)]
      set A : ℕ → ℝ :=
        fun k => getAmplitude (0.5 + 0.005 * k) f zeta2 mu zeta1 with hA
      apply le_antisymm
      · apply max_le
        · apply Finset.sup'_le
          intro k hk
          exact Finset.le_sup' A
            (Finset.mem_range.mpr (Nat.lt_succ_of_lt (Finset.mem_range.mp hk)))
        · exact Finset.le_sup' A (Finset.mem_range.mpr (Nat.lt_succ_self _))
      · apply Finset.sup'_le
        intro k hk
        rcases Nat.lt_succ_iff_lt_or_eq.mp (Finset.mem_range.mp hk) with h | h
        · exact le_trans
            (Finset.le_sup' A (Finset.mem_range.mpr h)) (le_max_left _ _)
        · rw [h]
          exact le_max_right _ _

/-! ### Zero-mass reduction -/

/-- With `mu = 0` the with-absorber denominator factors as the numerator
magnitude times the bare-primary denominator (the complex product
`(term1 + i·term2) * ((1-g²) + i·2·zeta1·g)` has `D1 + i·D2` as value). -/
lemma getAmplitudeDen_mu_zero (g f zeta2 zeta1 : ℝ) :
    getAmplitudeDen g f zeta2 0 zeta1 =
      getAmplitudeNum g f zeta2 * getOriginalAmplitudeDen g zeta1 := by
  unfold getAmplitudeDen getAmplitudeNum getOriginalAmplitudeDen
  simp only
  rw [← Real.sqrt_mul (add_nonneg (mul_self_nonneg _) (mul_self_nonneg _))]
  congr 1
  ring

lemma getAmplitude_mu_zero_of_num_ne {g f zeta2 zeta1 : ℝ}
    (h : getAmplitudeNum g f zeta2 ≠ 0) :
    getAmplitude g f zeta2 0 zeta1 = getOriginalAmplitude g zeta1 := by
  have hfac := getAmplitudeDen_mu_zero g f zeta2 zeta1
  unfold getAmplitude getOriginalAmplitude
  by_cases hP : getOriginalAmplitudeDen g zeta1 = 0
  · rw [if_pos (by rw [hfac, hP, mul_zero]), if_pos hP]
  · rw [if_neg (by rw [hfac]; exact mul_ne_zero h hP), if_neg hP, hfac,
      div_mul_eq_div_div, div_self h]

/-! ### Claim theorems -/

/-- Claim C1, counterexample: the zero-mass reduction is not literally
universal.  At `g = 1`, `f = 1`, `zeta2 = 0` the with-absorber formula
hits its zero-denominator sentinel (`100`) while the bare-primary
amplitude with `zeta1 = 1/2` is `1`. -/
theorem getAmplitude_mu_zero_not_universal :
    ¬ ∀ g f zeta2 zeta1 : ℝ,
        getAmplitude g f zeta2 0 zeta1 = getOriginalAmplitude g zeta1 := by
  intro h
  have h1 := h 1 1 0 (1/2)
  have e1 : getAmplitude 1 1 0 0 (1/2) = 100 := by
    have hden : getAmplitudeDen 1 1 0 0 (1/2) = 0 := by
      unfold getAmplitudeDen
      norm_num [Real.sqrt_zero]
    unfold getAmplitude
    rw [if_pos hden]
  have e2 : getOriginalAmplitude 1 (1/2) = 1 := by
    have hden : getOriginalAmplitudeDen 1 (1/2) = 1 := by
      unfold getOriginalAmplitudeDen
      norm_num [Real.sqrt_one]
    unfold getOriginalAmplitude
    rw [if_neg (by rw [hden]; norm_num), hden]
    norm_num
  rw [e1, e2] at h1
  norm_num at h1

/-- Claim C1, amended: for mass ratio `mu = 0` the with-absorber
amplitude equals the bare-primary amplitude for every `g`, `f`, `zeta2`,
`zeta1` such that the transfer-function numerator magnitude is nonzero
(i.e. except where `f² = g²` and `zeta2·f·g = 0` simultaneously, where
the with-absorber formula returns its `0/0` sentinel `100` instead). -/
theorem getAmplitude_mu_zero_reduces (g f zeta2 zeta1 : ℝ)
    (h : getAmplitudeNum g f zeta2 ≠ 0) :
    getAmplitude g f zeta2 0 zeta1 = getOriginalAmplitude g zeta1 :=
  getAmplitude_mu_zero_of_num_ne h

/-- Claim C1, witness for the amended theorem at
`g = 2, f = 1, zeta2 = 0, zeta1 = 0` (numerator magnitude `√9 = 3 ≠ 0`). -/
theorem getAmplitude_mu_zero_reduces_witness :
    getAmplitudeNum 2 1 0 ≠ 0 ∧
      getAmplitude 2 1 0 0 0 = getOriginalAmplitude 2 0 := by
  have hnum : getAmplitudeNum 2 1 0 ≠ 0 := by
    unfold getAmplitudeNum
    rw [Real.sqrt_ne_zero']
    norm_num
  exact ⟨hnum, getAmplitude_mu_zero_reduces 2 1 0 0 hnum⟩

/-- Claim C3: `optimizeTMD` always returns a result — namely the state of
the coordinate-descent loop after at most 20 iterations of fuel, starting
from the Den Hartog warm start — and its `minPeakAmp` field equals
`findPeakAmplitude` evaluated at the returned `(f_opt, zeta2_opt)`. -/
theorem optimizeTMD_total_and_peak (mu zeta1 : ℝ) :
    optimizeTMD mu zeta1 =
      ⟨(optLoop mu zeta1 (1/10000) 20 (optInit mu zeta1)).f,
       (optLoop mu zeta1 (1/10000) 20 (optInit mu zeta1)).zeta2,
       (optLoop mu zeta1 (1/10000) 20 (optInit mu zeta1)).currentVal⟩ ∧
    (optimizeTMD mu zeta1).minPeakAmp =
      findPeakAmplitude (optimizeTMD mu zeta1).f_opt
        (optimizeTMD mu zeta1).zeta2_opt mu zeta1 :=
  ⟨rfl, optLoop_currentVal mu zeta1 (1/10000) 20 (optInit mu zeta1) rfl⟩

/-- Claim C4: both amplitude functions return exactly the sentinel `100`
whenever their denominator magnitude is exactly zero (the result is a
real number in every case, never an infinity or a NaN). -/
theorem amplitude_zero_den_sentinel (g f zeta2 mu zeta1 : ℝ) :
    (getAmplitudeDen g f zeta2 mu zeta1 = 0 →
      getAmplitude g f zeta2 mu zeta1 = 100) ∧
    (getOriginalAmplitudeDen g zeta1 = 0 →
      getOriginalAmplitude g zeta1 = 100) := by
  constructor
  · intro h
    unfold getAmplitude
    rw [if_pos h]
  · intro h
    unfold getOriginalAmplitude
    rw [if_pos h]

/-- Claim C4, witness: at `g = 1, f = 1, zeta2 = 0, mu = 0, zeta1 = 0`
both denominators vanish and both functions return `100`. -/
theorem amplitude_zero_den_sentinel_witness :
    getAmplitude 1 1 0 0 0 = 100 ∧ getOriginalAmplitude 1 0 = 100 := by
  have hd1 : getAmplitudeDen 1 1 0 0 0 = 0 := by
    unfold getAmplitudeDen
    norm_num [Real.sqrt_zero]
  have hd2 : getOriginalAmplitudeDen 1 0 = 0 := by
    unfold getOriginalAmplitudeDen
    norm_num [Real.sqrt_zero]
  exact ⟨(amplitude_zero_den_sentinel 1 1 0 0 0).1 hd1,
    (amplitude_zero_den_sentinel 1 0 0 0 0).2 hd2⟩

/-- Claim C5: `findPeakAmplitude` is the maximum of `getAmplitude` over
the 301 grid points `g = 0.5 + 0.005·k`, `k = 0, …, 300`, and the last
grid point is exactly the endpoint `g = 2.0`. -/
theorem findPeakAmplitude_eq_grid_max (f zeta2 mu zeta1 : ℝ) :
    findPeakAmplitude f zeta2 mu zeta1 =
      (Finset.range 301).sup' ⟨0, Finset.mem_range.mpr (by norm_num)⟩
        (fun k => getAmplitude (0.5 + 0.005 * k) f zeta2 mu zeta1) ∧
    (0.5 : ℝ) + 0.005 * (300 : ℕ) = 2 := by
  constructor
  · exact peakScan_eq_sup f zeta2 mu zeta1 300
      ⟨0, Finset.mem_range.mpr (by norm_num)⟩
  · norm_num

/-- Claim C6: for any objective and any bracket `lower < upper` with
positive tolerance, `goldenSectionSearch` returns a point of
`[lower, upper]`; and on a convex parabola whose analytic minimum `x0`
lies in the bracket, the returned point is within `tolerance` of `x0`. -/
theorem goldenSectionSearch_bounds_and_parabola (obj : ℝ → ℝ)
    (lower upper tol : ℝ) (hlu : lower < upper) (htol : 0 < tol) :
    (lower ≤ goldenSectionSearch obj lower upper tol ∧
      goldenSectionSearch obj lower upper tol ≤ upper) ∧
    ∀ c d x0 : ℝ, 0 < c → lower ≤ x0 → x0 ≤ upper →
      |goldenSectionSearch (fun x => c * (x - x0) ^ 2 + d)
          lower upper tol - x0| ≤ tol :=
  ⟨goldenSectionSearch_mem obj tol hlu.le,
   fun _ _ _ hc h1 h2 => goldenSectionSearch_parabola hc htol h1 h2⟩

/-- Claim C6, witness: bracket `[0, 1]`, tolerance `1`, objective the
parabola `x ↦ 1·(x − 1/2)² + 0` with minimum at `x0 = 1/2`. -/
theorem goldenSectionSearch_bounds_and_parabola_witness :
    ((0:ℝ) ≤ goldenSectionSearch (fun x => 1 * (x - 1/2) ^ 2 + 0) 0 1 1 ∧
      goldenSectionSearch (fun x => 1 * (x - 1/2) ^ 2 + 0) 0 1 1 ≤ 1) ∧
    |goldenSectionSearch (fun x => 1 * (x - 1/2) ^ 2 + 0) 0 1 1 - 1/2|
      ≤ 1 := by
  have h := goldenSectionSearch_bounds_and_parabola
    (fun x => 1 * (x - 1/2) ^ 2 + 0) 0 1 1 (by norm_num) (by norm_num)
  exact ⟨h.1, h.2 1 0 (1/2) (by norm_num) (by norm_num) (by norm_num)⟩

/-- Claim C7: `goldenSectionSearch` terminates for every objective and
every positive tolerance: each iteration of the loop scales the signed
bracket width by `phi < 1` (so the guard `|b − a| > tol` eventually
fails), the state the loop exits with satisfies `|b − a| ≤ tol`, and the
returned value is the midpoint `(a + b)/2` of that final bracket. -/
theorem goldenSectionSearch_terminating (obj : ℝ → ℝ)
    (lower upper tol : ℝ) (htol : 0 < tol) :
    |(gssFinal obj lower upper tol).b - (gssFinal obj lower upper tol).a|
        ≤ tol ∧
    goldenSectionSearch obj lower upper tol =
      ((gssFinal obj lower upper tol).a +
        (gssFinal obj lower upper tol).b) / 2 ∧
    ∀ s : GssState, s.Wf obj →
      (gssStep obj s).b - (gssStep obj s).a = phi * (s.b - s.a) :=
  ⟨gssFinal_width obj lower upper htol, rfl, fun _ hs => gssStep_width hs⟩

/-- Claim C7, witness: objective `x ↦ x` on `[0, 1]` with tolerance `1`. -/
theorem goldenSectionSearch_terminating_witness :
    |(gssFinal (fun x => x) 0 1 1).b - (gssFinal (fun x => x) 0 1 1).a|
        ≤ 1 ∧
    goldenSectionSearch (fun x => x) 0 1 1 =
      ((gssFinal (fun x => x) 0 1 1).a +
        (gssFinal (fun x => x) 0 1 1).b) / 2 := by
  have h := goldenSectionSearch_terminating (fun x => x) 0 1 1 (by norm_num)
  exact ⟨h.1, h.2.1⟩

/-- Claim C8: the amplitude functions are total on all real arguments and
always return a finite nonnegative real (the square-root arguments are
sums of squares and the division is guarded), and `findPeakAmplitude`
is therefore also finite and nonnegative. -/
theorem amplitude_total_nonneg (g f zeta2 mu zeta1 : ℝ) :
    0 ≤ getAmplitude g f zeta2 mu zeta1 ∧
      0 ≤ getOriginalAmplitude g zeta1 ∧
      0 ≤ findPeakAmplitude f zeta2 mu zeta1 :=
  ⟨getAmplitude_nonneg g f zeta2 mu zeta1,
   getOriginalAmplitude_nonneg g zeta1,
   findPeakAmplitude_nonneg f zeta2 mu zeta1⟩

/-- Claim C9: for every `mu` and `zeta1`, the optimizer's returned
parameters stay in the fixed golden-section search boxes:
`f_opt ∈ [0.5, 1.5]` and `zeta2_opt ∈ [0.01, 0.5]`. -/
theorem optimizeTMD_in_box (mu zeta1 : ℝ) :
    ((0.5:ℝ) ≤ (optimizeTMD mu zeta1).f_opt ∧
      (optimizeTMD mu zeta1).f_opt ≤ 1.5) ∧
    ((0.01:ℝ) ≤ (optimizeTMD mu zeta1).zeta2_opt ∧
      (optimizeTMD mu zeta1).zeta2_opt ≤ 0.5) := by
  have h := optLoop_fromBody mu zeta1 (1/10000) 19 (optInit mu zeta1)
  exact ⟨⟨h.1, h.2.1⟩, ⟨h.2.2.1, h.2.2.2.1⟩⟩

/-- Claim C10: `optimizeTMD` is deterministic — equal inputs give equal
results; the embedding is a pure function of `(mu, zeta1)` with no
hidden state. -/
theorem optimizeTMD_deterministic (mu zeta1 mu' zeta1' : ℝ)
    (hmu : mu = mu') (hz : zeta1 = zeta1') :
    optimizeTMD mu zeta1 = optimizeTMD mu' zeta1' := by
  rw [hmu, hz]

/-- Claim C10, witness at the spec's scenario `mu = 0.05`,
`zeta1 = 0.05`. -/
theorem optimizeTMD_deterministic_witness :
    optimizeTMD 0.05 0.05 = optimizeTMD 0.05 0.05 :=
  optimizeTMD_deterministic 0.05 0.05 0.05 0.05 rfl rfl

end TmdOptimizer
